import Mathlib

/-!
Verification of the `aeb_object_tracking` / `robot_navigator` repository.

The C++ sources are shallowly embedded: `float` values are modelled exactly
by rationals, with the value positive infinity (produced by the
time-to-collision computation) represented explicitly by the type `Flt`.
The comparisons the code performs on possibly-infinite floats follow the
IEEE-754 ordering on these values.  `std::sort` is modelled as the stable
sorted permutation (repeated extraction of the first minimal element);
for the sizes appearing here this is the outcome of libstdc++'s introsort,
whose final pass over fewer than sixteen elements is a plain insertion
sort.  `std::partial_sort` is embedded as libstdc++'s actual
implementation (bits/stl_heap.h, bits/stl_algo.h): `__heap_select` — a
max-heap of the first `k` positions updated by the scan of the tail —
followed by `__sort_heap`; the contract the C++ standard gives the call
is stated separately as `partialSortSpec`, which quantifies over the
tie-breaking freedom the standard leaves open.
-/

/-- A `float` value as it occurs in the tracker: either a finite value,
modelled exactly by a rational, or positive infinity (the only non-finite
value the code produces, via `std::numeric_limits<float>::infinity()`). -/
inductive Flt where
  | fin (q : ℚ)
  | inf
deriving DecidableEq

/-- Models `std::isinf` on the values of `Flt`. -/
def Flt.isInf : Flt → Bool
  | .fin _ => false
  | .inf => true

/-- IEEE `<` restricted to the values of `Flt`. -/
def Flt.lt : Flt → Flt → Bool
  | .fin a, .fin b => if a < b then true else false
  | .fin _, .inf => true
  | .inf, _ => false

/-- IEEE `<=` restricted to the values of `Flt`. -/
def Flt.le : Flt → Flt → Bool
  | .fin a, .fin b => if a ≤ b then true else false
  | .fin _, .inf => true
  | .inf, .fin _ => false
  | .inf, .inf => true

/-- IEEE `x > c` for a finite constant `c` (infinity is greater than any
finite constant). -/
def Flt.gtRat (x : Flt) (c : ℚ) : Bool :=
  match x with
  | .fin a => if c < a then true else false
  | .inf => true

/-- IEEE `x < c` for a finite constant `c` (infinity is less than no
finite constant). -/
def Flt.ltRat (x : Flt) (c : ℚ) : Bool :=
  match x with
  | .fin a => if a < c then true else false
  | .inf => false

/-- The rational carried by a finite value.  The code only reads a float
as a number after checking it is finite, so the value returned on `inf`
is never relevant; it is set to `0`. -/
def Flt.toRat : Flt → ℚ
  | .fin a => a
  | .inf => 0

/-- `DetectedObject` (aeb_tracker.h): identifier, kinematic inputs and the
two fields derived once at construction. -/
structure DetectedObject where
  id : Int
  distance : ℚ
  relativeVelocity : ℚ
  collisionTime : Flt
  threatLevel : ℚ
deriving DecidableEq

/-- `DetectedObject::calculateThreatLevel` (aeb_tracker.cpp:205-214), as a
function of the two fields it reads.  `collision_time_ > 10.0f` is true
and `collision_time_ < 1.0f` is false when the collision time is
infinite. -/
def calculateThreatLevel (distance : ℚ) (collisionTime : Flt) : ℚ :=
  if collisionTime.gtRat 10 then 0
  else if collisionTime.ltRat 1 then 1
  else (max 0 (1 - distance / 100) + max 0 (1 - collisionTime.toRat / 10)) / 2

/-- `DetectedObject::DetectedObject(int, float, float)`
(aeb_tracker.cpp:216-227): computes the time-to-collision and the threat
level eagerly. -/
def DetectedObject.make (objId : Int) (dist relVel : ℚ) : DetectedObject :=
  let ct : Flt := if relVel < -(1 / 10) then .fin (dist / (-relVel)) else .inf
  { id := objId
    distance := dist
    relativeVelocity := relVel
    collisionTime := ct
    threatLevel := calculateThreatLevel dist ct }

/-- `DetectedObject::DetectedObject()` (aeb_tracker.cpp:165): delegates to
the three-argument constructor with `(0, 0.0f, 0.0f)`. -/
def DetectedObject.mkDefault : DetectedObject :=
  DetectedObject.make 0 0 0

/-- `DetectedObject::operator<` (aeb_tracker.cpp:229-231): raw float
comparison of the two collision times. -/
def DetectedObject.lt (a b : DetectedObject) : Bool :=
  Flt.lt a.collisionTime b.collisionTime

/-- `AEBObjectTracker::Comparators::byCollisionTime`
(aeb_tracker.cpp:167-190). -/
def byCollisionTime (a b : DetectedObject) : Bool :=
  if a.collisionTime.isInf && b.collisionTime.isInf then
    if a.distance < b.distance then true else false
  else if a.collisionTime.isInf then false
  else if b.collisionTime.isInf then true
  else Flt.lt a.collisionTime b.collisionTime

/-- `AEBObjectTracker::Comparators::byThreatLevel`
(aeb_tracker.cpp:192-202), with `kThreatLevelFactor = 0.001f`. -/
def byThreatLevel (a b : DetectedObject) : Bool :=
  if |a.threatLevel - b.threatLevel| < 1 / 1000 then
    if a.distance < b.distance then true else false
  else
    if b.threatLevel < a.threatLevel then true else false

/-- One selection step: the first minimal element of `x :: xs` with
respect to the strict comparator `cmp` (the running best is replaced only
by a strictly smaller element), together with the remaining elements in
their relative order. -/
def selectMin (cmp : α → α → Bool) : α → List α → α × List α
  | x, [] => (x, [])
  | x, y :: ys =>
    if cmp y x then
      let p := selectMin cmp y ys
      (p.1, x :: p.2)
    else
      let p := selectMin cmp x ys
      (p.1, y :: p.2)

/-- Selection sort with explicit fuel (the fuel is always instantiated
with the length of the list). -/
def selSortAux (cmp : α → α → Bool) : Nat → List α → List α
  | 0, _ => []
  | _ + 1, [] => []
  | n + 1, x :: xs =>
    let p := selectMin cmp x xs
    p.1 :: selSortAux cmp n p.2

/-- Deterministic model of `std::sort(v, cmp)`: repeated extraction of the
first minimal element.  The result is a sorted permutation of the input,
one of the outcomes `std::sort` may produce. -/
def selSort (cmp : α → α → Bool) (l : List α) : List α :=
  selSortAux cmp l.length l

/-- The sift-up loop of libstdc++'s `std::__push_heap` (bits/stl_heap.h):
while the hole is below `top` and its parent is `cmp`-less than `value`,
the parent moves down into the hole; finally `value` is written into the
hole.  Positions are offsets from `first`; `dflt` is what an out-of-range
read returns (never reached for the in-range calls the algorithms make).
The fuel bounds the iteration count (the hole index strictly decreases). -/
def pushHeapLoop (cmp : α → α → Bool) (dflt : α) (first : Nat) :
    Nat → List α → Nat → Nat → α → List α
  | 0, a, hole, _, value => a.set (first + hole) value
  | fuel + 1, a, hole, top, value =>
    let parent := (hole - 1) / 2
    if top < hole && cmp (a.getD (first + parent) dflt) value then
      pushHeapLoop cmp dflt first fuel
        (a.set (first + hole) (a.getD (first + parent) dflt)) parent top value
    else a.set (first + hole) value

/-- The descend loop of libstdc++'s `std::__adjust_heap`: while the hole
has two children, the larger child moves up and the hole descends into
its position.  Returns the updated list and the final hole index. -/
def adjustHeapDown (cmp : α → α → Bool) (dflt : α) (first len : Nat) :
    Nat → List α → Nat → List α × Nat
  | 0, a, hole => (a, hole)
  | fuel + 1, a, hole =>
    if hole < (len - 1) / 2 then
      let sc0 := 2 * (hole + 1)
      let sc := if cmp (a.getD (first + sc0) dflt) (a.getD (first + sc0 - 1) dflt)
        then sc0 - 1 else sc0
      adjustHeapDown cmp dflt first len fuel
        (a.set (first + hole) (a.getD (first + sc) dflt)) sc
    else (a, hole)

/-- libstdc++'s `std::__adjust_heap`: descend the hole to a leaf (with the
special case for a lone last child in an even-length heap), then sift
`value` back up from there towards the original hole position. -/
def adjustHeap (cmp : α → α → Bool) (dflt : α) (a : List α)
    (first holeIndex len : Nat) (value : α) : List α :=
  let p := adjustHeapDown cmp dflt first len len a holeIndex
  let q :=
    if len % 2 == 0 && p.2 == (len - 2) / 2 then
      let sc := 2 * (p.2 + 1)
      (p.1.set (first + p.2) (p.1.getD (first + sc - 1) dflt), sc - 1)
    else p
  pushHeapLoop cmp dflt first (q.2 + 1) q.1 q.2 holeIndex value

/-- libstdc++'s `std::__pop_heap` over positions `[first, last)`: the
element at `result` is saved, the heap top moves to `result`, and the
saved value is re-inserted into the shrunk heap. -/
def popHeap (cmp : α → α → Bool) (dflt : α) (a : List α)
    (first last result : Nat) : List α :=
  let value := a.getD result dflt
  let a1 := a.set result (a.getD first dflt)
  adjustHeap cmp dflt a1 first 0 (last - first) value

/-- The parent-descending loop of libstdc++'s `std::__make_heap`. -/
def makeHeapLoop (cmp : α → α → Bool) (dflt : α) (first len : Nat) :
    Nat → List α → Nat → List α
  | 0, a, _ => a
  | fuel + 1, a, parent =>
    let a1 := adjustHeap cmp dflt a first parent len (a.getD (first + parent) dflt)
    if parent == 0 then a1
    else makeHeapLoop cmp dflt first len fuel a1 (parent - 1)

/-- libstdc++'s `std::__make_heap` over positions `[first, last)`. -/
def makeHeap (cmp : α → α → Bool) (dflt : α) (a : List α)
    (first last : Nat) : List α :=
  if last - first < 2 then a
  else
    makeHeapLoop cmp dflt first (last - first) (last - first) a
      ((last - first - 2) / 2)

/-- The scan loop of libstdc++'s `std::__heap_select`: every element at or
past `middle` that is `cmp`-less than the heap top replaces it via
`__pop_heap`. -/
def heapSelectLoop (cmp : α → α → Bool) (dflt : α) (first middle : Nat) :
    Nat → List α → Nat → List α
  | 0, a, _ => a
  | fuel + 1, a, i =>
    let a1 := if cmp (a.getD i dflt) (a.getD first dflt)
      then popHeap cmp dflt a first middle i else a
    heapSelectLoop cmp dflt first middle fuel a1 (i + 1)

/-- libstdc++'s `std::__heap_select(first, middle, last)`: heapify the
prefix, then scan the tail. -/
def heapSelect (cmp : α → α → Bool) (dflt : α) (a : List α)
    (first middle last : Nat) : List α :=
  heapSelectLoop cmp dflt first middle (last - middle)
    (makeHeap cmp dflt a first middle) middle

/-- The loop of libstdc++'s `std::__sort_heap`: repeatedly pop the heap
top to the shrinking end of the range. -/
def sortHeapLoop (cmp : α → α → Bool) (dflt : α) (first : Nat) :
    Nat → List α → Nat → List α
  | 0, a, _ => a
  | fuel + 1, a, last =>
    if first + 1 < last then
      sortHeapLoop cmp dflt first fuel
        (popHeap cmp dflt a first (last - 1) (last - 1)) (last - 1)
    else a

/-- libstdc++'s `std::__sort_heap` over `[first, last)`. -/
def sortHeap (cmp : α → α → Bool) (dflt : α) (a : List α)
    (first last : Nat) : List α :=
  sortHeapLoop cmp dflt first (last - first) a last

/-- libstdc++'s `std::partial_sort(first, middle, last, cmp)`
(bits/stl_algo.h): `__heap_select` followed by `__sort_heap`. -/
def partialSortStd (cmp : α → α → Bool) (dflt : α) (a : List α)
    (first middle last : Nat) : List α :=
  sortHeap cmp dflt (heapSelect cmp dflt a first middle last) first middle

/-- Sortedness of a list with respect to a strict comparator: no element
is strictly less than an element placed before it. -/
def sortedBy (cmp : α → α → Bool) : List α → Bool
  | [] => true
  | x :: xs => xs.all (fun y => !cmp y x) && sortedBy cmp xs

/-- The outcome contract the C++ standard gives
`std::partial_sort(first, first+k, last, cmp)`, read on the whole stored
sequence: the result is a permutation of the input, its first `k` elements
are sorted by `cmp`, and no element beyond the first `k` is `cmp`-less
than any of them.  This spec-side definition quantifies over the
tie-breaking freedom the standard leaves to implementations. -/
def partialSortSpec (cmp : α → α → Bool) (k : Nat)
    (input output : List α) : Prop :=
  output.Perm input ∧ sortedBy cmp (output.take k) = true ∧
    ∀ x ∈ output.take k, ∀ y ∈ output.drop k, cmp y x = false

/-- `AEBObjectTracker` (aeb_tracker.h): owns the sequence of detected
objects. -/
structure AEBObjectTracker where
  objects : List DetectedObject
deriving DecidableEq

/-- `AEBObjectTracker::addObject` (aeb_tracker.cpp:238-240). -/
def AEBObjectTracker.addObject (t : AEBObjectTracker) (o : DetectedObject) :
    AEBObjectTracker :=
  ⟨t.objects ++ [o]⟩

/-- `AEBObjectTracker::size` (aeb_tracker.cpp:252). -/
def AEBObjectTracker.size (t : AEBObjectTracker) : Nat :=
  t.objects.length

/-- `AEBObjectTracker::sortByCollisionTime` (aeb_tracker.cpp:256-258):
`std::sort` with `Comparators::byCollisionTime`. -/
def AEBObjectTracker.sortByCollisionTime (t : AEBObjectTracker) :
    AEBObjectTracker :=
  ⟨selSort byCollisionTime t.objects⟩

/-- `AEBObjectTracker::sortByThreatLevel` (aeb_tracker.cpp:260-262).  The
body passes `Comparators::byCollisionTime` to `std::sort`, not
`Comparators::byThreatLevel`; the embedding is faithful to that body. -/
def AEBObjectTracker.sortByThreatLevel (t : AEBObjectTracker) :
    AEBObjectTracker :=
  ⟨selSort byCollisionTime t.objects⟩

/-- `AEBObjectTracker::partialSortCriticalObjects`
(aeb_tracker.cpp:264-274): early return on an empty sequence, then
`std::partial_sort` to position `min(max_objects, size)` with
`Comparators::byCollisionTime`, embedded as the libstdc++ implementation
`partialSortStd`.  The default object stands in for an out-of-range read
and is never reached for these in-range arguments. -/
def AEBObjectTracker.partialSortCriticalObjects (t : AEBObjectTracker)
    (maxObjects : Nat) : AEBObjectTracker :=
  if t.objects.isEmpty then t
  else
    ⟨partialSortStd byCollisionTime DetectedObject.mkDefault t.objects
      0 (min maxObjects t.objects.length) t.objects.length⟩

/-- `AEBObjectTracker::getCriticalObjects` (aeb_tracker.cpp:280-286): a
copy of the first `min(max_objects, size)` stored objects, without
sorting. -/
def AEBObjectTracker.getCriticalObjects (t : AEBObjectTracker)
    (maxObjects : Nat) : List DetectedObject :=
  t.objects.take (min maxObjects t.objects.length)

/-- The predicate of the `copy_if` / `any_of` lambdas
(aeb_tracker.cpp:295-298 and 312-315): finite collision time within the
threshold. -/
def withinThreshold (thresholdSeconds : ℚ) (o : DetectedObject) : Bool :=
  !o.collisionTime.isInf && Flt.le o.collisionTime (.fin thresholdSeconds)

/-- `AEBObjectTracker::getObjectsWithinTimeThreshold`
(aeb_tracker.cpp:288-301): `std::copy_if` over the stored sequence. -/
def AEBObjectTracker.getObjectsWithinTimeThreshold (t : AEBObjectTracker)
    (thresholdSeconds : ℚ) : List DetectedObject :=
  t.objects.filter (withinThreshold thresholdSeconds)

/-- `AEBObjectTracker::hasCriticalObjects` (aeb_tracker.cpp:310-316):
`std::any_of` over the stored sequence. -/
def AEBObjectTracker.hasCriticalObjects (t : AEBObjectTracker)
    (thresholdSeconds : ℚ) : Bool :=
  t.objects.any (withinThreshold thresholdSeconds)

/-- `Turn` (robot_navigator.h): left or right. -/
inductive Turn where
  | kLeft
  | kRight
deriving DecidableEq

/-- `Instruction` (robot_navigator.h): a turn and an unsigned 32-bit step
count. -/
structure Instruction where
  turn : Turn
  steps : Nat
deriving DecidableEq

/-- The failure `std::stoi` raises when its argument has no leading
integer (`std::invalid_argument`); the only failure `parseInstructions`
can propagate. -/
inductive ParseErr where
  | invalidArgument
deriving DecidableEq

/-- The whitespace characters `std::stoi` (via `isspace`) skips. -/
def isSpaceChar (c : Char) : Bool :=
  c = ' ' || c = '\t' || c = '\n' || c = '\x0b' || c = '\x0c' || c = '\r'

/-- Accumulates the value of the leading run of decimal digits. -/
def readDigitsAux : List Char → Nat → Nat
  | [], acc => acc
  | c :: cs, acc =>
    if c.isDigit then readDigitsAux cs (acc * 10 + (c.toNat - 48)) else acc

/-- The leading run of decimal digits, or `none` when the first character
is not a digit (`std::stoi` stops at the first non-digit and requires at
least one digit). -/
def readDigits : List Char → Option Nat
  | [] => none
  | c :: cs => if c.isDigit then some (readDigitsAux (c :: cs) 0) else none

/-- `std::stoi`: skip leading whitespace, accept an optional sign, then
read the leading digits; `none` models the `std::invalid_argument` it
throws when no digits are found.  (The `std::out_of_range` overflow
failure is not modelled; the claims never involve values near `INT_MAX`.) -/
def stoi (s : List Char) : Option Int :=
  match s.dropWhile isSpaceChar with
  | '-' :: rest => (readDigits rest).map (fun n => -(n : Int))
  | '+' :: rest => (readDigits rest).map (fun n => (n : Int))
  | rest => (readDigits rest).map (fun n => (n : Int))

/-- The token accumulation loop of `parseInstructions`
(robot_navigator.cpp): split on `,`, skip spaces, and drop empty tokens. -/
def tokenizeAux : List Char → List Char → List (List Char)
  | [], tok => if tok.isEmpty then [] else [tok]
  | c :: cs, tok =>
    if c = ',' then
      if tok.isEmpty then tokenizeAux cs []
      else tok :: tokenizeAux cs []
    else if c = ' ' then tokenizeAux cs tok
    else tokenizeAux cs (tok ++ [c])

/-- The tokens `parseInstructions` processes, in order. -/
def tokenize (input : List Char) : List (List Char) :=
  tokenizeAux input []

/-- Processing of one (non-empty) token: the turn is `kLeft` exactly when
the first character is `L` (any other letter silently yields `kRight`),
and the steps are `static_cast<std::uint32_t>(std::stoi(token.substr(1)))`. -/
def parseToken (tok : List Char) : Except ParseErr Instruction :=
  let turn : Turn := if tok.head? = some 'L' then .kLeft else .kRight
  match stoi (tok.drop 1) with
  | none => .error .invalidArgument
  | some n => .ok ⟨turn, (n % (2 ^ 32 : Int)).toNat⟩

/-- Folds `parseToken` over the tokens; the first failure aborts, as the
exception thrown by `std::stoi` does. -/
def parseTokens : List (List Char) → Except ParseErr (List Instruction)
  | [] => .ok []
  | tok :: rest =>
    match parseToken tok with
    | .error e => .error e
    | .ok ins =>
      match parseTokens rest with
      | .error e => .error e
      | .ok tail => .ok (ins :: tail)

/-- `parseInstructions` (robot_navigator.cpp:169-196), on the character
sequence of its input string. -/
def parseInstructions (input : List Char) : Except ParseErr (List Instruction) :=
  parseTokens (tokenize input)

/-- Concrete object with finite collision time `5` (distance `10`,
velocity `-2`). -/
def oFin : DetectedObject := DetectedObject.make 21 10 (-2)

/-- Concrete receding object (infinite collision time) at distance `2`. -/
def oInfFar : DetectedObject := DetectedObject.make 22 2 0

/-- Concrete receding object (infinite collision time) at distance `1`. -/
def oInfNear : DetectedObject := DetectedObject.make 23 1 0

/-- Threat level `7/10` at distance `10` (collision time `5`). -/
def oT1 : DetectedObject := DetectedObject.make 41 10 (-2)

/-- Threat level `3503/5000` at distance `101/10` (collision time
`2489/500`); the threat gap to `oT1` is `3/5000`, strictly inside the
`1/1000` band with margin `2/5000`. -/
def oT2 : DetectedObject := DetectedObject.make 42 (101 / 10) (-(5050 / 2489))

/-- Threat level `1753/2500` at distance `51/5` (collision time
`1239/250`); the threat gap to `oT2` is `3/5000` (inside the band) and to
`oT1` it is `6/5000`, strictly outside the band with margin `1/5000`. -/
def oT3 : DetectedObject := DetectedObject.make 43 (51 / 5) (-(850 / 413))

/-- Collision time `6` but high threat level `139/200` (close object,
slowly approaching). -/
def c1Near : DetectedObject := DetectedObject.make 2 1 (-(1 / 6))

/-- Collision time `5` but low threat level `51/200` (far object, fast
approaching). -/
def c1Far : DetectedObject := DetectedObject.make 1 99 (-(99 / 5))

/-- Collision time `1` at distance `10`; `byCollisionTime`-equivalent to
`cexB` (equal finite collision times are never distinguished, whatever
the distances). -/
def cexA : DetectedObject := DetectedObject.make 61 10 (-10)

/-- Collision time `2` at distance `40`. -/
def cexMid : DetectedObject := DetectedObject.make 62 40 (-20)

/-- Collision time `1` at distance `20`; `byCollisionTime`-equivalent to
`cexA`. -/
def cexB : DetectedObject := DetectedObject.make 63 20 (-20)

/-- Claim C2: `byCollisionTime(a, b)` compares by distance when both
collision times are infinite, returns `false` when only `a` is infinite,
`true` when only `b` is infinite, and compares the collision times when
both are finite; in particular an object with finite collision time is
always more critical than one with infinite collision time. -/
theorem byCollisionTime_matches_spec (a b : DetectedObject) :
    (byCollisionTime a b =
      match a.collisionTime, b.collisionTime with
      | Flt.inf, Flt.inf => if a.distance < b.distance then true else false
      | Flt.inf, Flt.fin _ => false
      | Flt.fin _, Flt.inf => true
      | Flt.fin ta, Flt.fin tb => if ta < tb then true else false) ∧
    (a.collisionTime.isInf = false → b.collisionTime.isInf = true →
      byCollisionTime a b = true) := by
  rcases ha : a.collisionTime with ta | _ <;>
    rcases hb : b.collisionTime with tb | _ <;>
      simp [byCollisionTime, Flt.isInf, Flt.lt, ha, hb]

/-- Witness for C2: the finite-versus-infinite clause at concrete
objects. -/
theorem byCollisionTime_matches_spec_witness :
    byCollisionTime oFin oInfFar = true :=
  (byCollisionTime_matches_spec oFin oInfFar).2
    (by norm_num [oFin, DetectedObject.make, Flt.isInf])
    (by norm_num [oInfFar, DetectedObject.make, Flt.isInf])

/-- The threat level computed at construction lies in `[0, 1]`, for all
inputs. -/
theorem make_threatLevel_mem_unit (objId : Int) (dist relVel : ℚ) :
    0 ≤ (DetectedObject.make objId dist relVel).threatLevel ∧
    (DetectedObject.make objId dist relVel).threatLevel ≤ 1 := by
  simp only [DetectedObject.make, calculateThreatLevel]
  by_cases hv : relVel < -(1 / 10)
  · simp only [if_pos hv]
    set t := dist / -relVel with ht
    by_cases h10 : (10 : ℚ) < t
    · simp only [Flt.gtRat, if_pos h10, if_true]
      norm_num
    · by_cases h1 : t < 1
      · simp only [Flt.gtRat, Flt.ltRat, if_neg h10, if_pos h1, if_false, if_true]
        norm_num
      · have hvel : (0 : ℚ) < -relVel := by linarith
        have ht1 : (1 : ℚ) ≤ t := not_lt.mp h1
        have ht10 : t ≤ 10 := not_lt.mp h10
        have hd : 0 < dist := by
          have hdt : t * (-relVel) = dist := div_mul_cancel₀ dist (ne_of_gt hvel)
          rw [← hdt]
          exact mul_pos (lt_of_lt_of_le one_pos ht1) hvel
        simp only [Flt.gtRat, Flt.ltRat, Flt.toRat, if_neg h10, if_neg h1,
          Bool.false_eq_true, if_false]
        have hdf0 : (0 : ℚ) ≤ max 0 (1 - dist / 100) := le_max_left _ _
        have hdf1 : max 0 (1 - dist / 100) ≤ 1 := max_le (by norm_num) (by linarith)
        have htf0 : (0 : ℚ) ≤ max 0 (1 - t / 10) := le_max_left _ _
        have htf1 : max 0 (1 - t / 10) ≤ 1 := max_le (by norm_num) (by linarith)
        constructor
        · linarith
        · linarith
  · simp only [if_neg hv, Flt.gtRat, if_true]
    norm_num

/-- Claim C4: for every constructed object, including physically
nonsensical inputs, the threat level lies in `[0, 1]` and equals the
piecewise function of the spec: `0` if the collision time exceeds `10`,
`1` if it is below `1`, otherwise the average of
`max 0 (1 - distance/100)` and `max 0 (1 - collisionTime/10)`. -/
theorem threatLevel_range_and_formula (objId : Int) (dist relVel : ℚ) :
    0 ≤ (DetectedObject.make objId dist relVel).threatLevel ∧
    (DetectedObject.make objId dist relVel).threatLevel ≤ 1 ∧
    (DetectedObject.make objId dist relVel).threatLevel =
      (if (DetectedObject.make objId dist relVel).collisionTime.gtRat 10 then 0
       else if (DetectedObject.make objId dist relVel).collisionTime.ltRat 1 then 1
       else (max 0 (1 - dist / 100) +
         max 0 (1 - (DetectedObject.make objId dist relVel).collisionTime.toRat / 10)) / 2) :=
  ⟨(make_threatLevel_mem_unit objId dist relVel).1,
   (make_threatLevel_mem_unit objId dist relVel).2, rfl⟩

/-- Claim C5: the collision time is `distance / -relativeVelocity` exactly
when `relativeVelocity < -0.1` and positive infinity otherwise, and the
default-constructed object `(0, 0, 0)` has infinite collision time and
threat level `0`. -/
theorem collisionTime_construction_spec :
    (∀ (objId : Int) (dist relVel : ℚ),
      (relVel < -(1 / 10) →
        (DetectedObject.make objId dist relVel).collisionTime = .fin (dist / (-relVel))) ∧
      (¬ relVel < -(1 / 10) →
        (DetectedObject.make objId dist relVel).collisionTime = .inf)) ∧
    DetectedObject.mkDefault.id = 0 ∧
    DetectedObject.mkDefault.distance = 0 ∧
    DetectedObject.mkDefault.relativeVelocity = 0 ∧
    DetectedObject.mkDefault.collisionTime = .inf ∧
    DetectedObject.mkDefault.threatLevel = 0 := by
  refine ⟨fun objId dist relVel => ⟨fun hv => ?_, fun hv => ?_⟩, rfl, rfl, rfl, ?_, ?_⟩
  · simp only [DetectedObject.make, if_pos hv]
  · simp only [DetectedObject.make, if_neg hv]
  · norm_num [DetectedObject.mkDefault, DetectedObject.make]
  · norm_num [DetectedObject.mkDefault, DetectedObject.make, calculateThreatLevel, Flt.gtRat]

/-- Witness for C5: the two collision-time clauses at concrete inputs. -/
theorem collisionTime_construction_spec_witness :
    (DetectedObject.make 31 50 (-10)).collisionTime = .fin (50 / 10) ∧
    (DetectedObject.make 32 5 0).collisionTime = .inf := by
  constructor
  · have h := (collisionTime_construction_spec.1 31 50 (-10)).1 (by norm_num)
    simpa using h
  · exact (collisionTime_construction_spec.1 32 5 0).2 (by norm_num)

/-- Claim C6 (amended): `byThreatLevel` is irreflexive and asymmetric. -/
theorem byThreatLevel_irrefl_asymm :
    (∀ a : DetectedObject, byThreatLevel a a = false) ∧
    (∀ a b : DetectedObject, byThreatLevel a b = true → byThreatLevel b a = false) := by
  constructor
  · intro a
    simp [byThreatLevel]
  · intro a b h
    unfold byThreatLevel at h ⊢
    rw [show |b.threatLevel - a.threatLevel| = |a.threatLevel - b.threatLevel| from
      abs_sub_comm _ _]
    split_ifs at h ⊢ with h1 h2 h3 <;> simp_all <;> linarith

/-- Claim C6 (counterexample): `byThreatLevel` is not transitive. -/
theorem byThreatLevel_not_transitive_cex :
    byThreatLevel oT1 oT2 = true ∧ byThreatLevel oT2 oT3 = true ∧
    byThreatLevel oT1 oT3 = false := by
  refine ⟨?_, ?_, ?_⟩ <;>
    norm_num [byThreatLevel, oT1, oT2, oT3, DetectedObject.make, calculateThreatLevel,
      Flt.gtRat, Flt.ltRat, Flt.toRat, abs_of_nonneg, abs_of_nonpos, abs_sub_comm]

/-- Witness for the amended C6: irreflexivity and asymmetry at concrete
objects. -/
theorem byThreatLevel_irrefl_asymm_witness :
    byThreatLevel oT1 oT1 = false ∧ byThreatLevel oT2 oT1 = false := by
  constructor
  · exact byThreatLevel_irrefl_asymm.1 oT1
  · refine byThreatLevel_irrefl_asymm.2 oT1 oT2 ?_
    norm_num [byThreatLevel, oT1, oT2, DetectedObject.make, calculateThreatLevel,
      Flt.gtRat, Flt.ltRat, Flt.toRat, abs_of_nonneg, abs_of_nonpos, abs_sub_comm]

/-- `any` over a list is the negation of emptiness of the corresponding
`filter`. -/
theorem any_eq_not_isEmpty_filter (p : α → Bool) (l : List α) :
    l.any p = !(l.filter p).isEmpty := by
  induction l with
  | nil => rfl
  | cons x xs ih =>
    by_cases h : p x <;> simp [List.filter_cons, h, ih]

/-- Claim C7: `getObjectsWithinTimeThreshold` returns exactly the stored
objects with finite collision time within the threshold, in their stored
relative order (a sublist), and a larger threshold yields a superset. -/
theorem getObjectsWithinTimeThreshold_spec (t : AEBObjectTracker) :
    (∀ thr : ℚ,
      t.getObjectsWithinTimeThreshold thr =
        t.objects.filter (fun o =>
          !o.collisionTime.isInf && Flt.le o.collisionTime (.fin thr)) ∧
      (t.getObjectsWithinTimeThreshold thr).Sublist t.objects ∧
      (∀ o : DetectedObject,
        o ∈ t.getObjectsWithinTimeThreshold thr ↔
          o ∈ t.objects ∧ o.collisionTime.isInf = false ∧
            Flt.le o.collisionTime (.fin thr) = true)) ∧
    (∀ thr1 thr2 : ℚ, thr1 ≤ thr2 →
      ∀ o : DetectedObject, o ∈ t.getObjectsWithinTimeThreshold thr1 →
        o ∈ t.getObjectsWithinTimeThreshold thr2) := by
  constructor
  · intro thr
    refine ⟨rfl, List.filter_sublist _, fun o => ?_⟩
    simp [AEBObjectTracker.getObjectsWithinTimeThreshold, List.mem_filter,
      withinThreshold, and_assoc]
  · intro thr1 thr2 hle o ho
    simp only [AEBObjectTracker.getObjectsWithinTimeThreshold, List.mem_filter,
      withinThreshold, Bool.and_eq_true, Bool.not_eq_true'] at ho ⊢
    refine ⟨ho.1, ho.2.1, ?_⟩
    rcases hc : o.collisionTime with a | _
    · have h1 := ho.2.2
      rw [hc] at h1
      have h2 : a ≤ thr1 := by
        by_contra hno
        simp [Flt.le, if_neg hno] at h1
      simp [Flt.le, if_pos (le_trans h2 hle)]
    · rw [hc] at ho
      simp [Flt.isInf] at ho

/-- Witness for C7: monotonicity applied at a concrete tracker, thresholds
`5 ≤ 6`, and a concrete member object. -/
theorem getObjectsWithinTimeThreshold_spec_witness :
    oFin ∈ (AEBObjectTracker.mk [oFin, oInfFar]).getObjectsWithinTimeThreshold 6 := by
  refine (getObjectsWithinTimeThreshold_spec ⟨[oFin, oInfFar]⟩).2 5 6 (by norm_num) oFin ?_
  norm_num [AEBObjectTracker.getObjectsWithinTimeThreshold, withinThreshold,
    List.filter_cons, oFin, oInfFar, DetectedObject.make, Flt.isInf, Flt.le]

/-- Claim C8: `hasCriticalObjects` holds exactly when some stored object
has finite collision time within the threshold, equivalently when
`getObjectsWithinTimeThreshold` is non-empty. -/
theorem hasCriticalObjects_spec (t : AEBObjectTracker) (thr : ℚ) :
    (t.hasCriticalObjects thr = true ↔
      ∃ o ∈ t.objects, o.collisionTime.isInf = false ∧
        Flt.le o.collisionTime (.fin thr) = true) ∧
    t.hasCriticalObjects thr = !(t.getObjectsWithinTimeThreshold thr).isEmpty := by
  constructor
  · simp [AEBObjectTracker.hasCriticalObjects, List.any_eq_true, withinThreshold]
  · exact any_eq_not_isEmpty_filter _ _

/-- Claim C10: `operator<` compares the raw collision times with no
infinity special-casing: on two infinite collision times it is false both
ways even for different distances, so it differs from `byCollisionTime`
at the concrete pair `oInfNear`, `oInfFar`. -/
theorem operatorLt_spec :
    (∀ a b : DetectedObject,
      DetectedObject.lt a b = Flt.lt a.collisionTime b.collisionTime) ∧
    (∀ a b : DetectedObject,
      a.collisionTime.isInf = true → b.collisionTime.isInf = true →
        DetectedObject.lt a b = false ∧ DetectedObject.lt b a = false) ∧
    (DetectedObject.lt oInfNear oInfFar = false ∧
     DetectedObject.lt oInfFar oInfNear = false ∧
     byCollisionTime oInfNear oInfFar = true ∧
     oInfNear.distance ≠ oInfFar.distance) := by
  refine ⟨fun a b => rfl, fun a b ha hb => ?_, ?_, ?_, ?_, ?_⟩
  · rcases hca : a.collisionTime with x | _ <;> rcases hcb : b.collisionTime with y | _ <;>
      simp_all [Flt.isInf, Flt.lt, DetectedObject.lt]
  · norm_num [DetectedObject.lt, oInfNear, oInfFar, DetectedObject.make, Flt.lt]
  · norm_num [DetectedObject.lt, oInfNear, oInfFar, DetectedObject.make, Flt.lt]
  · norm_num [byCollisionTime, oInfNear, oInfFar, DetectedObject.make, Flt.isInf]
  · norm_num [oInfNear, oInfFar, DetectedObject.make]

/-- Witness for C10: the both-infinite clause applied at concrete
objects. -/
theorem operatorLt_spec_witness :
    DetectedObject.lt DetectedObject.mkDefault oInfFar = false ∧
    DetectedObject.lt oInfFar DetectedObject.mkDefault = false :=
  operatorLt_spec.2.1 DetectedObject.mkDefault oInfFar
    (by norm_num [DetectedObject.mkDefault, DetectedObject.make, Flt.isInf])
    (by norm_num [oInfFar, DetectedObject.make, Flt.isInf])

/-- Claim C1 (code bug, evaluation): on the tracker holding
`[c1Near, c1Far]`, `sortByThreatLevel` produces `[c1Far, c1Near]`, which
is sorted with respect to `byCollisionTime` but not with respect to
`byThreatLevel` (the threat-level order of this pair is the opposite), as
its body applies `Comparators::byCollisionTime`. -/
theorem sortByThreatLevel_applies_collisionTime_eval :
    (AEBObjectTracker.sortByThreatLevel ⟨[c1Near, c1Far]⟩).objects = [c1Far, c1Near] ∧
    sortedBy byThreatLevel
      (AEBObjectTracker.sortByThreatLevel ⟨[c1Near, c1Far]⟩).objects = false ∧
    sortedBy byCollisionTime
      (AEBObjectTracker.sortByThreatLevel ⟨[c1Near, c1Far]⟩).objects = true ∧
    sortedBy byThreatLevel [c1Near, c1Far] = true := by
  have hrev : sortedBy byThreatLevel [c1Near, c1Far] = true := by
    norm_num [sortedBy, byThreatLevel, c1Near, c1Far,
      DetectedObject.make, calculateThreatLevel, Flt.gtRat, Flt.ltRat, Flt.toRat,
      abs_of_nonneg, abs_of_nonpos, abs_sub_comm]
  have hsort : (AEBObjectTracker.sortByThreatLevel ⟨[c1Near, c1Far]⟩).objects =
      [c1Far, c1Near] := by
    norm_num [AEBObjectTracker.sortByThreatLevel, selSort, selSortAux, selectMin,
      byCollisionTime, Flt.isInf, Flt.lt, c1Near, c1Far, DetectedObject.make]
  refine ⟨hsort, ?_, ?_, hrev⟩ <;> rw [hsort] <;>
    norm_num [sortedBy, byThreatLevel, byCollisionTime, c1Near, c1Far,
      DetectedObject.make, calculateThreatLevel, Flt.gtRat, Flt.ltRat, Flt.toRat,
      Flt.isInf, Flt.lt, abs_of_nonneg, abs_of_nonpos, abs_sub_comm]

/-- Claim C9 (code bug, evaluation): `parseInstructions` silently yields
`(Right, 2)` for the malformed token `X2`, silently skips the empty token
in `R2,,L3`, and surfaces only the generic `std::stoi` failure for `Rx`. -/
theorem parseInstructions_malformed_eval :
    parseInstructions ('X' :: '2' :: []) = .ok [⟨Turn.kRight, 2⟩] ∧
    parseInstructions ('R' :: '2' :: ',' :: ',' :: 'L' :: '3' :: []) =
      .ok [⟨Turn.kRight, 2⟩, ⟨Turn.kLeft, 3⟩] ∧
    parseInstructions ('R' :: 'x' :: []) = .error .invalidArgument :=
  ⟨rfl, rfl, rfl⟩

/-- A selection step keeps the number of remaining elements. -/
theorem selectMin_snd_length (cmp : α → α → Bool) (x : α) (xs : List α) :
    ((selectMin cmp x xs).2).length = xs.length := by
  induction xs generalizing x with
  | nil => rfl
  | cons y ys ih =>
    by_cases h : cmp y x <;> simp [selectMin, h, ih]

/-- With enough fuel, the selection sort keeps the length of the
sequence. -/
theorem selSortAux_length (cmp : α → α → Bool) :
    ∀ (n : Nat) (l : List α), l.length ≤ n → (selSortAux cmp n l).length = l.length := by
  intro n
  induction n with
  | zero =>
    intro l h
    rcases l with _ | ⟨x, xs⟩
    · rfl
    · simp at h
  | succ n ih =>
    intro l h
    rcases l with _ | ⟨x, xs⟩
    · rfl
    · simp only [selSortAux, List.length_cons]
      rw [ih _ (by simp only [selectMin_snd_length]; simpa using h)]
      simp [selectMin_snd_length]


/-- `byCollisionTime` is irreflexive. -/
theorem byCollisionTime_irrefl (a : DetectedObject) :
    byCollisionTime a a = false := by
  rcases ha : a.collisionTime with ta | _ <;>
    simp [byCollisionTime, Flt.isInf, Flt.lt, ha]

/-- `byCollisionTime` is asymmetric. -/
theorem byCollisionTime_asymm (a b : DetectedObject) :
    byCollisionTime a b = true → byCollisionTime b a = false := by
  rcases ha : a.collisionTime with ta | _ <;>
    rcases hb : b.collisionTime with tb | _ <;>
      simp [byCollisionTime, Flt.isInf, Flt.lt, ha, hb, not_lt] <;>
        intro h <;> linarith

/-- The negation of `byCollisionTime` — the induced less-or-equivalent
relation — is transitive. -/
theorem byCollisionTime_le_trans (a b c : DetectedObject) :
    byCollisionTime b a = false → byCollisionTime c b = false →
      byCollisionTime c a = false := by
  rcases ha : a.collisionTime with ta | _ <;>
    rcases hb : b.collisionTime with tb | _ <;>
      rcases hc : c.collisionTime with tc | _ <;>
        simp [byCollisionTime, Flt.isInf, Flt.lt, ha, hb, hc, not_lt] <;>
          intro h1 h2 <;> linarith

/-- A selection step permutes the input: the selected element followed by
the remainder is a rearrangement of the original list. -/
theorem selectMin_cons_perm (cmp : α → α → Bool) (x : α) (xs : List α) :
    ((selectMin cmp x xs).1 :: (selectMin cmp x xs).2).Perm (x :: xs) := by
  induction xs generalizing x with
  | nil => simp [selectMin]
  | cons y ys ih =>
    by_cases h : cmp y x = true
    · simp only [selectMin, h, if_true]
      exact (List.Perm.swap x _ _).trans ((ih y).cons x)
    · have hb : cmp y x = false := by
        cases hcase : cmp y x
        · rfl
        · exact absurd hcase h
      simp only [selectMin, hb, Bool.false_eq_true, if_false]
      exact ((List.Perm.swap y _ _).trans ((ih x).cons y)).trans (List.Perm.swap x y ys)

/-- The element a selection step picks is minimal: no input element is
`cmp`-less than it (for a comparator that is irreflexive and asymmetric
with a transitive negation). -/
theorem selectMin_fst_min (cmp : α → α → Bool)
    (hirr : ∀ a, cmp a a = false)
    (hasym : ∀ a b, cmp a b = true → cmp b a = false)
    (hletrans : ∀ a b c, cmp b a = false → cmp c b = false → cmp c a = false)
    (x : α) (xs : List α) :
    ∀ y ∈ x :: xs, cmp y (selectMin cmp x xs).1 = false := by
  induction xs generalizing x with
  | nil =>
    intro y hy
    simp only [List.mem_singleton] at hy
    subst hy
    simpa [selectMin] using hirr y
  | cons y ys ih =>
    intro z hz
    by_cases h : cmp y x = true
    · simp only [selectMin, h, if_true]
      have hy : cmp y (selectMin cmp y ys).1 = false :=
        ih y y (List.mem_cons_self y ys)
      rcases List.mem_cons.mp hz with rfl | hz'
      · exact hletrans _ y _ hy (hasym y z h)
      · exact ih y z hz'
    · have hb : cmp y x = false := by
        cases hcase : cmp y x
        · rfl
        · exact absurd hcase h
      simp only [selectMin, hb, Bool.false_eq_true, if_false]
      have hx : cmp x (selectMin cmp x ys).1 = false :=
        ih x x (List.mem_cons_self x ys)
      rcases List.mem_cons.mp hz with rfl | hz'
      · exact hx
      · rcases List.mem_cons.mp hz' with rfl | hz''
        · exact hletrans _ x _ hx hb
        · exact ih x z (List.mem_cons_of_mem x hz'')

/-- With enough fuel the selection sort is a permutation of its input. -/
theorem selSortAux_perm (cmp : α → α → Bool) :
    ∀ (n : Nat) (l : List α), l.length ≤ n → (selSortAux cmp n l).Perm l := by
  intro n
  induction n with
  | zero =>
    intro l h
    rcases l with _ | ⟨x, xs⟩
    · simp [selSortAux]
    · simp at h
  | succ n ih =>
    intro l h
    rcases l with _ | ⟨x, xs⟩
    · simp [selSortAux]
    · simp only [selSortAux]
      refine List.Perm.trans ?_ (selectMin_cons_perm cmp x xs)
      refine List.Perm.cons _ ?_
      exact ih _ (by rw [selectMin_snd_length]; simpa using h)

/-- With enough fuel the selection sort is sorted with respect to the
comparator. -/
theorem selSortAux_sorted (cmp : α → α → Bool)
    (hirr : ∀ a, cmp a a = false)
    (hasym : ∀ a b, cmp a b = true → cmp b a = false)
    (hletrans : ∀ a b c, cmp b a = false → cmp c b = false → cmp c a = false) :
    ∀ (n : Nat) (l : List α), l.length ≤ n →
      sortedBy cmp (selSortAux cmp n l) = true := by
  intro n
  induction n with
  | zero => intro l _; rfl
  | succ n ih =>
    intro l h
    rcases l with _ | ⟨x, xs⟩
    · rfl
    · have hlen : ((selectMin cmp x xs).2).length ≤ n := by
        rw [selectMin_snd_length]
        simpa using h
      simp only [selSortAux, sortedBy, Bool.and_eq_true, List.all_eq_true]
      constructor
      · intro y hy
        have hy2 : y ∈ (selectMin cmp x xs).2 :=
          (selSortAux_perm cmp n _ hlen).subset hy
        have hmem : y ∈ x :: xs :=
          (selectMin_cons_perm cmp x xs).subset (List.mem_cons_of_mem _ hy2)
        simpa using selectMin_fst_min cmp hirr hasym hletrans x xs y hmem
      · exact ih _ hlen

/-- Appending a block whose every element is `cmp`-at-most every element
of a sorted front keeps sortedness. -/
theorem sortedBy_append (cmp : α → α → Bool) :
    ∀ (A B : List α), sortedBy cmp A = true → sortedBy cmp B = true →
      (∀ a ∈ A, ∀ b ∈ B, cmp b a = false) →
      sortedBy cmp (A ++ B) = true := by
  intro A
  induction A with
  | nil => intro B _ hB _; simpa using hB
  | cons x A ih =>
    intro B hA hB hAB
    simp only [sortedBy, Bool.and_eq_true, List.all_eq_true] at hA
    simp only [List.cons_append, sortedBy, Bool.and_eq_true, List.all_eq_true]
    refine ⟨?_, ih B hA.2 hB (fun a ha b hb => hAB a (List.mem_cons_of_mem x ha) b hb)⟩
    intro y hy
    rcases List.mem_append.mp hy with hyA | hyB
    · exact hA.1 y hyA
    · simpa using hAB x (List.mem_cons_self x A) y hyB

/-- Two sorted permutations of each other are equal when the comparator
distinguishes every pair of distinct members. -/
theorem sortedBy_perm_unique (cmp : α → α → Bool) :
    ∀ (l1 l2 : List α), l1.Perm l2 → sortedBy cmp l1 = true →
      sortedBy cmp l2 = true →
      (∀ x ∈ l1, ∀ y ∈ l1, cmp x y = false → cmp y x = false → x = y) →
      l1 = l2 := by
  intro l1
  induction l1 with
  | nil =>
    intro l2 hp _ _ _
    exact (hp.symm.eq_nil).symm
  | cons x xs ih =>
    intro l2 hp h1 h2 hanti
    rcases l2 with _ | ⟨y, ys⟩
    · exact absurd hp.eq_nil (by simp)
    · have h1' : ∀ z ∈ xs, cmp z x = false := by
        simp only [sortedBy, Bool.and_eq_true, List.all_eq_true] at h1
        intro z hz
        simpa using h1.1 z hz
      have h2' : ∀ z ∈ ys, cmp z y = false := by
        simp only [sortedBy, Bool.and_eq_true, List.all_eq_true] at h2
        intro z hz
        simpa using h2.1 z hz
      have hxy : x = y := by
        by_contra hne
        have hxys : x ∈ ys := by
          have hm : x ∈ y :: ys := hp.subset (List.mem_cons_self x xs)
          rcases List.mem_cons.mp hm with h | h
          · exact absurd h hne
          · exact h
        have hyxs : y ∈ xs := by
          have hm : y ∈ x :: xs := hp.symm.subset (List.mem_cons_self y ys)
          rcases List.mem_cons.mp hm with h | h
          · exact absurd h.symm hne
          · exact h
        exact hne (hanti x (List.mem_cons_self x xs) y (List.mem_cons_of_mem x hyxs)
          (h2' x hxys) (h1' y hyxs))
      subst hxy
      have hp' : xs.Perm ys := hp.cons_inv
      have hs1 : sortedBy cmp xs = true := by
        simp only [sortedBy, Bool.and_eq_true] at h1
        exact h1.2
      have hs2 : sortedBy cmp ys = true := by
        simp only [sortedBy, Bool.and_eq_true] at h2
        exact h2.2
      rw [ih ys hp' hs1 hs2
        (fun a ha b hb => hanti a (List.mem_cons_of_mem x ha) b (List.mem_cons_of_mem x hb))]

/-- Claim C3 (amended): for `k ≤ size` and a tracker whose stored objects
are pairwise distinguished by `byCollisionTime`, the prefix returned by
`getCriticalObjects k` after the full sort agrees with the first `k`
elements of every outcome admissible under the `std::partial_sort`
contract; the tie-breaking freedom the standard grants cannot show. -/
theorem sortThenGet_eq_partialSortThenGet_noties (t : AEBObjectTracker)
    (k : Nat) (hk : k ≤ t.size)
    (hanti : ∀ x ∈ t.objects, ∀ y ∈ t.objects,
      byCollisionTime x y = false → byCollisionTime y x = false → x = y)
    (p : List DetectedObject)
    (hp : partialSortSpec byCollisionTime k t.objects p) :
    t.sortByCollisionTime.getCriticalObjects k = p.take k := by
  rcases t with ⟨l⟩
  simp only [AEBObjectTracker.size] at hk
  obtain ⟨hperm, hsortA, hpart⟩ := hp
  have hplen : p.length = l.length := hperm.length_eq
  have hBperm : (selSort byCollisionTime (p.drop k)).Perm (p.drop k) :=
    selSortAux_perm byCollisionTime _ _ le_rfl
  have hs'perm : (p.take k ++ selSort byCollisionTime (p.drop k)).Perm l := by
    refine List.Perm.trans ?_ hperm
    have e1 : (p.take k ++ selSort byCollisionTime (p.drop k)).Perm
        (p.take k ++ p.drop k) := hBperm.append_left _
    rw [List.take_append_drop k p] at e1
    exact e1
  have hs'sorted : sortedBy byCollisionTime
      (p.take k ++ selSort byCollisionTime (p.drop k)) = true := by
    refine sortedBy_append byCollisionTime _ _ hsortA
      (selSortAux_sorted byCollisionTime byCollisionTime_irrefl
        byCollisionTime_asymm byCollisionTime_le_trans _ _ le_rfl) ?_
    intro a ha b hb
    exact hpart a ha b (hBperm.subset hb)
  have hlsorted : sortedBy byCollisionTime (selSort byCollisionTime l) = true :=
    selSortAux_sorted byCollisionTime byCollisionTime_irrefl
      byCollisionTime_asymm byCollisionTime_le_trans _ _ le_rfl
  have hlperm : (selSort byCollisionTime l).Perm l :=
    selSortAux_perm byCollisionTime _ _ le_rfl
  have huniq : selSort byCollisionTime l =
      p.take k ++ selSort byCollisionTime (p.drop k) :=
    sortedBy_perm_unique byCollisionTime _ _ (hlperm.trans hs'perm.symm)
      hlsorted hs'sorted
      (fun a ha b hb => hanti a (hlperm.subset ha) b (hlperm.subset hb))
  have hAlen : (p.take k).length = k := by
    rw [List.length_take]
    omega
  have hslen : (selSort byCollisionTime l).length = l.length :=
    selSortAux_length byCollisionTime l.length l le_rfl
  show (selSort byCollisionTime l).take
      (min k (selSort byCollisionTime l).length) = p.take k
  rw [hslen, min_eq_left hk, huniq, List.take_left' hAlen]

/-- Claim C3 (counterexample): on the tracker `[cexA, cexMid, cexB]`,
whose first and third objects share the finite collision time `1`, the
full sort followed by `getCriticalObjects 2` returns `[cexA, cexB]` while
`partialSortCriticalObjects 2` followed by `getCriticalObjects 2` returns
`[cexB, cexA]`: the two prefixes hold the same objects in different
orders at `k = 2 ≤ size`. -/
theorem sortThenGet_ne_partialSortThenGet_cex :
    2 ≤ (AEBObjectTracker.mk [cexA, cexMid, cexB]).size ∧
    (AEBObjectTracker.sortByCollisionTime
      ⟨[cexA, cexMid, cexB]⟩).getCriticalObjects 2 = [cexA, cexB] ∧
    (AEBObjectTracker.partialSortCriticalObjects
      ⟨[cexA, cexMid, cexB]⟩ 2).getCriticalObjects 2 = [cexB, cexA] ∧
    (AEBObjectTracker.sortByCollisionTime
      ⟨[cexA, cexMid, cexB]⟩).getCriticalObjects 2 ≠
    (AEBObjectTracker.partialSortCriticalObjects
      ⟨[cexA, cexMid, cexB]⟩ 2).getCriticalObjects 2 := by
  have h1 : (AEBObjectTracker.sortByCollisionTime
      ⟨[cexA, cexMid, cexB]⟩).getCriticalObjects 2 = [cexA, cexB] := by
    norm_num [AEBObjectTracker.sortByCollisionTime,
      AEBObjectTracker.getCriticalObjects, selSort, selSortAux, selectMin,
      byCollisionTime, Flt.isInf, Flt.lt, cexA, cexMid, cexB,
      DetectedObject.make, calculateThreatLevel, Flt.gtRat, Flt.ltRat, Flt.toRat]
  have h2 : (AEBObjectTracker.partialSortCriticalObjects
      ⟨[cexA, cexMid, cexB]⟩ 2).getCriticalObjects 2 = [cexB, cexA] := by
    norm_num [AEBObjectTracker.partialSortCriticalObjects,
      AEBObjectTracker.getCriticalObjects, partialSortStd,
      sortHeap, sortHeapLoop, heapSelect, heapSelectLoop, makeHeap, makeHeapLoop,
      adjustHeap, adjustHeapDown, pushHeapLoop, popHeap, List.getD, List.set,
      byCollisionTime, Flt.isInf, Flt.lt, cexA, cexMid, cexB,
      DetectedObject.make, calculateThreatLevel, Flt.gtRat, Flt.ltRat, Flt.toRat]
  have hne : cexA ≠ cexB := by
    intro h
    have hid : cexA.id = cexB.id := by rw [h]
    norm_num [cexA, cexB, DetectedObject.make] at hid
  refine ⟨by norm_num [AEBObjectTracker.size], h1, h2, ?_⟩
  rw [h1, h2]
  intro h
  simp only [List.cons.injEq] at h
  exact hne h.1

/-- Witness for the amended C3: the no-tie agreement applied at a
concrete two-object tracker, `k = 1`, and the admissible outcome
`[c1Far, c1Near]`. -/
theorem sortThenGet_eq_partialSortThenGet_noties_witness :
    (AEBObjectTracker.sortByCollisionTime
      ⟨[c1Near, c1Far]⟩).getCriticalObjects 1 = [c1Far] := by
  refine sortThenGet_eq_partialSortThenGet_noties ⟨[c1Near, c1Far]⟩ 1
    (by norm_num [AEBObjectTracker.size]) ?_ [c1Far, c1Near] ⟨?_, ?_, ?_⟩
  · intro x hx y hy h1 h2
    have hx' : x ∈ [c1Near, c1Far] := hx
    have hy' : y ∈ [c1Near, c1Far] := hy
    fin_cases hx' <;> fin_cases hy'
    · rfl
    · exfalso
      norm_num [byCollisionTime, c1Near, c1Far, DetectedObject.make,
        Flt.isInf, Flt.lt] at h2
    · exfalso
      norm_num [byCollisionTime, c1Near, c1Far, DetectedObject.make,
        Flt.isInf, Flt.lt] at h1
    · rfl
  · exact List.Perm.swap c1Near c1Far []
  · norm_num [sortedBy]
  · intro x hx y hy
    have hx' : x ∈ [c1Far] := hx
    have hy' : y ∈ [c1Near] := hy
    fin_cases hx'
    fin_cases hy'
    norm_num [byCollisionTime, c1Near, c1Far, DetectedObject.make,
      Flt.isInf, Flt.lt]
